import Mathlib

/-!
Verification of the Telar build pipeline (scripts/telar), a shallow
embedding in Lean 4 of the Python functions that merge IIIF metadata into
CSV rows, normalize bilingual CSV headers, detect duplicate header rows,
resolve glossary cross-references, parse widget blocks, and classify legal
boilerplate in attribution strings.

Python strings are modelled as Lean `String` (a list of unicode
characters); Python dictionaries with string keys and values are modelled
as association lists with insertion-order update semantics; Python `None`
cells are modelled as `Option`.
-/

namespace Telar

/-! ## Python string primitives -/

/-- Characters treated as whitespace by the Python `str.strip` and the
regular-expression class `\s` for the character range used in this
repository (ASCII). -/
def pyIsSpace (c : Char) : Bool :=
  c = ' ' || c = '\t' || c = '\n' || c = '\r' || c = '\x0b' || c = '\x0c'

/-- Remove leading whitespace from a character list. -/
def pyStripLChars (l : List Char) : List Char := l.dropWhile pyIsSpace

/-- Remove trailing whitespace from a character list. -/
def pyStripRChars (l : List Char) : List Char :=
  (l.reverse.dropWhile pyIsSpace).reverse

/-- Remove leading and trailing whitespace, modelling Python `str.strip()`
restricted to the ASCII whitespace characters. -/
def pyStripChars (l : List Char) : List Char := pyStripRChars (pyStripLChars l)

/-- Python `str.strip()` on `String`. -/
def pyStrip (s : String) : String := ⟨pyStripChars s.data⟩

/-- Lower-case one character, modelling Python `str.lower()` for the
characters that occur in this repository (ASCII letters plus the accented
Spanish letters used in the bilingual column names). -/
def pyLowerChar (c : Char) : Char :=
  if 'A' ≤ c ∧ c ≤ 'Z' then Char.ofNat (c.toNat + 32)
  else if c = 'Á' then 'á'
  else if c = 'É' then 'é'
  else if c = 'Í' then 'í'
  else if c = 'Ó' then 'ó'
  else if c = 'Ú' then 'ú'
  else if c = 'Ñ' then 'ñ'
  else if c = 'Ü' then 'ü'
  else c

/-- Python `str.lower()` on `String`. -/
def pyLower (s : String) : String := ⟨s.data.map pyLowerChar⟩

/-- Leading-match test: does `needle` occur at the head of `hay`? -/
def matchesAt : List Char → List Char → Bool
  | [], _ => true
  | _ :: _, [] => false
  | a :: as, b :: bs => a = b && matchesAt as bs

/-- Substring containment, modelling the Python operator `needle in hay`. -/
def containsSub (needle : List Char) : List Char → Bool
  | [] => needle.isEmpty
  | b :: bs => matchesAt needle (b :: bs) || containsSub needle bs

/-- Python `s.startswith(p)`. -/
def pyStartsWith (p s : String) : Bool := matchesAt p.data s.data

/-- Python `s.endswith(p)`. -/
def pyEndsWith (p s : String) : Bool := matchesAt p.data.reverse s.data.reverse

/-- Drop the first `n` characters of a string. -/
def pyDrop (s : String) (n : Nat) : String := ⟨s.data.drop n⟩

/-- Drop the last `n` characters of a string. -/
def pyDropRight (s : String) (n : Nat) : String :=
  ⟨s.data.take (s.data.length - n)⟩

/-- Fuel-indexed split of a character list on a non-empty separator
sequence (leftmost, non-overlapping), modelling Python `str.split(sep)`.
The fuel is at least the length of the list plus one at every use. -/
def splitOnSeq (sep : List Char) : Nat → List Char → List (List Char)
  | 0, l => [l]
  | _ + 1, [] => [[]]
  | f + 1, c :: rest =>
      if matchesAt sep (c :: rest) then
        [] :: splitOnSeq sep f (List.drop (sep.length - 1) rest)
      else
        match splitOnSeq sep f rest with
        | [] => [[c]]
        | seg :: segs => (c :: seg) :: segs

/-- Python `s.split(sep)` for a non-empty separator. -/
def pySplit (sep s : String) : List String :=
  (splitOnSeq sep.data (s.data.length + 1) s.data).map (fun l => (⟨l⟩ : String))

/-- Python `sep.join(parts)`. -/
def pyIntercalate (sep : String) : List String → String
  | [] => ""
  | [x] => x
  | x :: y :: rest => x ++ sep ++ pyIntercalate sep (y :: rest)

/-! ## Python dictionaries as association lists -/

/-- Lookup in a Python dictionary modelled as an association list
(first binding wins; the repository dictionaries have unique keys). -/
def dictLookup : List (String × String) → String → Option String
  | [], _ => none
  | (k, v) :: rest, key => if k = key then some v else dictLookup rest key

/-- Python `key in dict`. -/
def dictContains (d : List (String × String)) (k : String) : Bool :=
  (dictLookup d k).isSome

/-- Python `dict.get(key, default)`. -/
def dictGetD (d : List (String × String)) (k : String) (dflt : String) : String :=
  (dictLookup d k).getD dflt

/-- Python `dict[key] = value`: update in place when the key exists
(keeping its position), append otherwise. -/
def dictSet : List (String × String) → String → String → List (String × String)
  | [], k, v => [(k, v)]
  | (k0, v0) :: rest, k, v =>
      if k0 = k then (k, v) :: rest else (k0, v0) :: dictSet rest k v

theorem dictLookup_set_self (d : List (String × String)) (k v : String) :
    dictLookup (dictSet d k v) k = some v := by
  induction d with
  | nil => simp [dictSet, dictLookup]
  | cons p rest ih =>
      obtain ⟨k0, v0⟩ := p
      by_cases h : k0 = k
      · simp [dictSet, h, dictLookup]
      · simp [dictSet, h, dictLookup, ih]

theorem dictLookup_set_ne (d : List (String × String)) (k v k' : String)
    (h : k' ≠ k) : dictLookup (dictSet d k v) k' = dictLookup d k' := by
  induction d with
  | nil => simp [dictSet, dictLookup, Ne.symm h]
  | cons p rest ih =>
      obtain ⟨k0, v0⟩ := p
      by_cases h0 : k0 = k
      · subst h0
        simp [dictSet, dictLookup, Ne.symm h]
      · simp [dictSet, h0, dictLookup, ih]

theorem dictLookup_mem {d : List (String × String)} {k v : String}
    (h : dictLookup d k = some v) : (k, v) ∈ d := by
  induction d with
  | nil => simp [dictLookup] at h
  | cons p rest ih =>
      obtain ⟨k0, v0⟩ := p
      by_cases h0 : k0 = k
      · subst h0
        simp [dictLookup] at h
        simp [h]
      · simp [dictLookup, h0] at h
        exact List.mem_cons_of_mem _ (ih h)

/-! ## Strip idempotence -/

theorem dropWhile_pyIsSpace_idem (l : List Char) :
    (l.dropWhile pyIsSpace).dropWhile pyIsSpace = l.dropWhile pyIsSpace := by
  induction l with
  | nil => simp
  | cons c rest ih =>
      by_cases h : pyIsSpace c
      · simp [List.dropWhile_cons, h, ih]
      · simp [List.dropWhile_cons, h]

theorem pyStripL_pyStripR (l : List Char) :
    pyStripLChars (pyStripRChars (pyStripLChars l)) =
      pyStripRChars (pyStripLChars l) := by
  unfold pyStripLChars pyStripRChars
  set y := l.dropWhile pyIsSpace with hy
  have hhead : ∀ c t, y = c :: t → pyIsSpace c = false := by
    intro c t hct
    have := List.head_dropWhile_not pyIsSpace l (by simp [← hy, hct])
    simp [← hy, hct] at this
    simpa using this
  rcases hpre : (y.reverse.dropWhile pyIsSpace).reverse with _ | ⟨c, t⟩
  · simp
  · have hprefix : (y.reverse.dropWhile pyIsSpace).reverse <+: y := by
      have hsuf : y.reverse.dropWhile pyIsSpace <:+ y.reverse :=
        List.dropWhile_suffix _
      simpa using hsuf.reverse
    rw [hpre] at hprefix
    obtain ⟨tail, htail⟩ := hprefix
    have hc : pyIsSpace c = false := by
      rcases y with _ | ⟨c0, t0⟩
      · simp at htail
      · have : c = c0 := by
          have := htail
          simp at this
          exact this.1
        subst this
        exact hhead _ _ rfl
    simp [List.dropWhile_cons, hc]

theorem pyStripR_idem (y : List Char) :
    pyStripRChars (pyStripRChars y) = pyStripRChars y := by
  unfold pyStripRChars
  simp [dropWhile_pyIsSpace_idem]

theorem pyStripChars_idem (l : List Char) :
    pyStripChars (pyStripChars l) = pyStripChars l := by
  unfold pyStripChars
  rw [pyStripL_pyStripR, pyStripR_idem]

theorem pyStrip_idem (s : String) : pyStrip (pyStrip s) = pyStrip s := by
  simp [pyStrip, pyStripChars_idem]

/-! ## scripts/telar/iiif_metadata.py: apply_metadata_fallback

Core fields that can be auto-populated from IIIF, and the merge with the
fallback hierarchy CSV > IIIF > empty. The Python function mutates
`row_dict` in place; the embedding threads the dictionary through a fold
over the field list. -/

/-- Fields auto-populated from IIIF metadata when the CSV cell is blank. -/
def fallback_fields : List String :=
  ["title", "description", "creator", "period", "source", "credit",
   "year", "object_type", "subjects"]

/-- One iteration of the loop body of `apply_metadata_fallback`. -/
def mergeField (iiif_metadata row_dict : List (String × String))
    (field : String) : List (String × String) :=
  let csv_value := pyStrip (dictGetD row_dict field "")
  let iiif_value := pyStrip (dictGetD iiif_metadata field "")
  if csv_value ≠ "" then row_dict
  else if iiif_value ≠ "" then dictSet row_dict field iiif_value
  else row_dict

/-- Apply fallback hierarchy CSV > IIIF > empty over the mergeable
fields, modelling `apply_metadata_fallback(row_dict, iiif_metadata)`. -/
def apply_metadata_fallback (row_dict iiif_metadata : List (String × String)) :
    List (String × String) :=
  fallback_fields.foldl (fun r f => mergeField iiif_metadata r f) row_dict

/-- Value of a row field as the Python code reads it:
`str(row_dict.get(field, ''))`. -/
def rget (row : List (String × String)) (field : String) : String :=
  dictGetD row field ""

theorem mergeField_lookup_ne (iiif row : List (String × String))
    (f g : String) (h : g ≠ f) :
    dictLookup (mergeField iiif row f) g = dictLookup row g := by
  unfold mergeField
  by_cases h1 : pyStrip (dictGetD row f "") ≠ ""
  · simp [h1]
  · by_cases h2 : pyStrip (dictGetD iiif f "") ≠ ""
    · simp [h1, h2, dictLookup_set_ne _ _ _ _ h]
    · simp [h1, h2]

theorem mergeField_rget_self (iiif row : List (String × String)) (f : String) :
    rget (mergeField iiif row f) f =
      if pyStrip (rget row f) ≠ "" then rget row f
      else if pyStrip (rget iiif f) ≠ "" then pyStrip (rget iiif f)
      else rget row f := by
  unfold mergeField rget dictGetD
  by_cases h1 : pyStrip ((dictLookup row f).getD "") = ""
  · by_cases h2 : pyStrip ((dictLookup iiif f).getD "") = ""
    · simp [h1, h2]
    · simp [h1, h2, dictLookup_set_self]
  · simp [h1]

theorem foldl_mergeField_lookup_notMem (iiif : List (String × String))
    (fs : List String) (row : List (String × String)) (f : String)
    (h : f ∉ fs) :
    dictLookup (fs.foldl (fun r g => mergeField iiif r g) row) f =
      dictLookup row f := by
  induction fs generalizing row with
  | nil => rfl
  | cons a rest ih =>
      simp only [List.foldl_cons]
      have hne : f ≠ a := fun hh => h (hh ▸ List.mem_cons_self a rest)
      rw [ih (mergeField iiif row a) (fun hm => h (List.mem_cons_of_mem a hm))]
      exact mergeField_lookup_ne iiif row a f hne

theorem foldl_mergeField_rget (iiif : List (String × String))
    (fs : List String) (row : List (String × String)) (f : String)
    (hnd : fs.Nodup) (hmem : f ∈ fs) :
    rget (fs.foldl (fun r g => mergeField iiif r g) row) f =
      if pyStrip (rget row f) ≠ "" then rget row f
      else if pyStrip (rget iiif f) ≠ "" then pyStrip (rget iiif f)
      else rget row f := by
  induction fs generalizing row with
  | nil => simp at hmem
  | cons a rest ih =>
      simp only [List.foldl_cons]
      rcases List.mem_cons.mp hmem with heq | hrest
      · subst heq
        have hnotin : f ∉ rest := (List.nodup_cons.mp hnd).1
        have := foldl_mergeField_lookup_notMem iiif rest
          (mergeField iiif row f) f hnotin
        unfold rget dictGetD
        rw [this]
        exact mergeField_rget_self iiif row f
      · have hne : f ≠ a := by
          rintro rfl
          exact (List.nodup_cons.mp hnd).1 hrest
        rw [ih (mergeField iiif row a) (List.nodup_cons.mp hnd).2 hrest]
        have hpre : rget (mergeField iiif row a) f = rget row f := by
          unfold rget dictGetD
          rw [mergeField_lookup_ne iiif row a f hne]
        rw [hpre]

/-- Characterization of a merged field for every mergeable field. -/
theorem rget_apply_metadata_fallback (row iiif : List (String × String))
    (f : String) (hmem : f ∈ fallback_fields) :
    rget (apply_metadata_fallback row iiif) f =
      if pyStrip (rget row f) ≠ "" then rget row f
      else if pyStrip (rget iiif f) ≠ "" then pyStrip (rget iiif f)
      else rget row f := by
  have hnd : fallback_fields.Nodup := by decide
  exact foldl_mergeField_rget iiif fallback_fields row f hnd hmem

theorem foldl_fixed {α β : Type} (g : α → β → α) (x : α) (l : List β)
    (h : ∀ b ∈ l, g x b = x) : l.foldl g x = x := by
  induction l with
  | nil => rfl
  | cons a rest ih =>
      simp only [List.foldl_cons]
      rw [h a (List.mem_cons_self a rest)]
      exact ih (fun b hb => h b (List.mem_cons_of_mem a hb))

/-- C1 (counterexample): with a blank CSV title and the extracted title
`" X "`, the merged field holds the trimmed string `"X"`, not the
extracted value `" X "` itself. -/
theorem apply_metadata_fallback_trims_counterexample :
    rget (apply_metadata_fallback [("title", "")] [("title", " X ")]) "title"
      = "X" ∧ ("X" : String) ≠ " X " := by
  constructor
  · rfl
  · decide

/-- C1 (amended): for every field in the mergeable field set, a non-blank
(post-trim) author value is kept unchanged; a blank author value is
replaced by the trimmed extracted value when the extracted value is
non-blank after trimming; when both are blank the field keeps its
original (blank) value, which is in particular still blank after the
merge. -/
theorem apply_metadata_fallback_hierarchy (row iiif : List (String × String))
    (f : String) (hmem : f ∈ fallback_fields) :
    (pyStrip (rget row f) ≠ "" →
      rget (apply_metadata_fallback row iiif) f = rget row f) ∧
    (pyStrip (rget row f) = "" → pyStrip (rget iiif f) ≠ "" →
      rget (apply_metadata_fallback row iiif) f = pyStrip (rget iiif f)) ∧
    (pyStrip (rget row f) = "" → pyStrip (rget iiif f) = "" →
      rget (apply_metadata_fallback row iiif) f = rget row f ∧
      pyStrip (rget (apply_metadata_fallback row iiif) f) = "") := by
  have hchar := rget_apply_metadata_fallback row iiif f hmem
  refine ⟨?_, ?_, ?_⟩
  · intro h1
    rw [hchar, if_pos h1]
  · intro h1 h2
    rw [hchar, if_neg (by simp [h1]), if_pos h2]
  · intro h1 h2
    rw [hchar, if_neg (by simp [h1]), if_neg (by simp [h2])]
    exact ⟨rfl, h1⟩

/-- C1 (witness): the amended hierarchy applied at a concrete row: a blank
title plus the extracted title `" X "` yields the trimmed value. -/
theorem apply_metadata_fallback_hierarchy_witness :
    ("title" : String) ∈ fallback_fields ∧
    pyStrip (rget [("title", "")] "title") = "" ∧
    pyStrip (rget [("title", " X ")] "title") ≠ "" ∧
    rget (apply_metadata_fallback [("title", "")] [("title", " X ")]) "title"
      = pyStrip (rget [("title", " X ")] "title") :=
  ⟨by decide, by decide, by decide,
    (apply_metadata_fallback_hierarchy [("title", "")] [("title", " X ")]
      "title" (by decide)).2.1 (by decide) (by decide)⟩

/-- C4: apply_metadata_fallback is idempotent: merging a second time with
the same extracted metadata returns the already-merged row unchanged. -/
theorem apply_metadata_fallback_idem (row iiif : List (String × String)) :
    apply_metadata_fallback (apply_metadata_fallback row iiif) iiif =
      apply_metadata_fallback row iiif := by
  apply foldl_fixed
  intro f hf
  have hchar := rget_apply_metadata_fallback row iiif f hf
  simp only [rget] at hchar
  by_cases h1 : pyStrip (dictGetD row f "") = ""
  · by_cases h2 : pyStrip (dictGetD iiif f "") = ""
    · have hval : dictGetD (apply_metadata_fallback row iiif) f "" =
          dictGetD row f "" := by
        rw [hchar, if_neg (by simp [h1]), if_neg (by simp [h2])]
      have hb : pyStrip (dictGetD (apply_metadata_fallback row iiif) f "") = "" := by
        rw [hval, h1]
      unfold mergeField
      simp [hb, h2]
    · have hval : dictGetD (apply_metadata_fallback row iiif) f "" =
          pyStrip (dictGetD iiif f "") := by
        rw [hchar, if_neg (by simp [h1]), if_pos h2]
      have hb : pyStrip (dictGetD (apply_metadata_fallback row iiif) f "") ≠ "" := by
        rw [hval, pyStrip_idem]
        exact h2
      unfold mergeField
      simp [hb]
  · have hval : dictGetD (apply_metadata_fallback row iiif) f "" =
        dictGetD row f "" := by
      rw [hchar, if_pos h1]
    have hb : pyStrip (dictGetD (apply_metadata_fallback row iiif) f "") ≠ "" := by
      rw [hval]
      exact h1
    unfold mergeField
    simp [hb]

/-! ## scripts/telar/csv_utils.py: column normalization and header rows -/

/-- Bilingual column name mapping (Spanish to English), verbatim from
`COLUMN_NAME_MAPPING`. -/
def COLUMN_NAME_MAPPING : List (String × String) :=
  [("paso", "step"),
   ("objeto", "object"),
   ("pregunta", "question"),
   ("respuesta", "answer"),
   ("boton_capa1", "layer1_button"),
   ("contenido_capa1", "layer1_content"),
   ("archivo_capa1", "layer1_content"),
   ("boton_capa2", "layer2_button"),
   ("contenido_capa2", "layer2_content"),
   ("archivo_capa2", "layer2_content"),
   ("layer1_file", "layer1_content"),
   ("layer2_file", "layer2_content"),
   ("id_objeto", "object_id"),
   ("titulo", "title"),
   ("descripcion", "description"),
   ("url_fuente", "source_url"),
   ("creador", "creator"),
   ("periodo", "period"),
   ("medio", "medium"),
   ("dimensiones", "dimensions"),
   ("ubicacion", "source"),
   ("credito", "credit"),
   ("miniatura", "thumbnail"),
   ("año", "year"),
   ("ano", "year"),
   ("tipo_objeto", "object_type"),
   ("temas", "subjects"),
   ("materias", "subjects"),
   ("materia", "subjects"),
   ("destacado", "featured"),
   ("fuente", "source"),
   ("location", "source"),
   ("orden", "order"),
   ("id_historia", "story_id"),
   ("subtitulo", "subtitle"),
   ("firma", "byline"),
   ("private", "protected"),
   ("privada", "protected"),
   ("protegida", "protected"),
   ("id_termino", "term_id"),
   ("id_término", "term_id"),
   ("título", "title"),
   ("definición", "definition"),
   ("definicion", "definition"),
   ("términos_relacionados", "related_terms"),
   ("terminos_relacionados", "related_terms")]

/-- Normalize one column name: case-insensitive lookup against the alias
mapping by `col.lower().strip()`; unmatched names pass through
unchanged. -/
def normalize_one (col : String) : String :=
  match dictLookup COLUMN_NAME_MAPPING (pyStrip (pyLower col)) with
  | some v => v
  | none => col

/-- Normalize a list of column names to English using the bilingual
mapping, modelling `normalize_column_names` applied to the column list of
a DataFrame. -/
def normalize_column_names (cols : List String) : List String :=
  cols.map normalize_one

/-- No canonical (English) name produced by the mapping is itself an alias
key, up to the case-insensitive lookup used by the code. -/
theorem mapping_values_not_keys :
    COLUMN_NAME_MAPPING.all
      (fun p => (dictLookup COLUMN_NAME_MAPPING (pyStrip (pyLower p.2))).isNone)
      = true := by decide

theorem normalize_one_idem (col : String) :
    normalize_one (normalize_one col) = normalize_one col := by
  unfold normalize_one
  rcases h : dictLookup COLUMN_NAME_MAPPING (pyStrip (pyLower col)) with _ | v
  · simp [h]
  · have hv : (pyStrip (pyLower col), v) ∈ COLUMN_NAME_MAPPING := dictLookup_mem h
    have hall := List.all_eq_true.mp mapping_values_not_keys _ hv
    simp only [Option.isNone_iff_eq_none] at hall
    simp [hall]

/-- C6: the column-name normalization is idempotent (applying the mapping
twice equals applying it once), and a column name whose case-insensitive
lookup misses the alias table passes through unchanged. -/
theorem normalize_column_names_idem :
    (∀ cols : List String,
      normalize_column_names (normalize_column_names cols) =
        normalize_column_names cols) ∧
    (∀ col : String,
      dictLookup COLUMN_NAME_MAPPING (pyStrip (pyLower col)) = none →
        normalize_one col = col) := by
  constructor
  · intro cols
    unfold normalize_column_names
    rw [List.map_map]
    exact List.map_congr_left (fun c _ => normalize_one_idem c)
  · intro col h
    unfold normalize_one
    rw [h]

/-- C6 (witness): idempotence at a concrete bilingual column list and
pass-through of an unknown column name. -/
theorem normalize_column_names_idem_witness :
    normalize_column_names (normalize_column_names ["Paso", "foo", "AÑO"]) =
      normalize_column_names ["Paso", "foo", "AÑO"] ∧
    dictLookup COLUMN_NAME_MAPPING (pyStrip (pyLower "foo")) = none ∧
    normalize_one "foo" = "foo" :=
  ⟨normalize_column_names_idem.1 ["Paso", "foo", "AÑO"], by decide,
    normalize_column_names_idem.2 "foo" (by decide)⟩

/-- Common column names recognized by `is_header_row` beyond the alias
mapping. -/
def extra_header_names : List String :=
  ["x", "y", "zoom", "order", "story_id", "title", "subtitle",
   "byline", "object_id", "description", "source_url", "creator",
   "period", "medium", "dimensions", "location", "source", "credit",
   "thumbnail", "year", "object_type", "subjects", "featured",
   "protected"]

/-- All valid column names (English and Spanish): mapping keys, mapping
values, and the extra common names; membership in this list models
membership in the Python set union. -/
def header_valid_names : List String :=
  COLUMN_NAME_MAPPING.map Prod.fst ++ COLUMN_NAME_MAPPING.map Prod.snd ++
    extra_header_names

/-- Check whether a row contains header names. Cells are
`Option String`, `none` modelling a missing (`NaN`) cell dropped by
`pd.notna`. The Python float comparison `matches / total >= 0.8` is
modelled by the exact rational comparison `4 * total ≤ 5 * matches`,
which agrees with the IEEE evaluation for every realistic row length. -/
def is_header_row (row_values : List (Option String)) : Bool :=
  let counts := row_values.foldl
    (fun (acc : Nat × Nat) val =>
      match val with
      | none => acc
      | some s =>
          ((acc.1 + if header_valid_names.contains (pyStrip (pyLower s))
              then 1 else 0),
            acc.2 + 1))
    (0, 0)
  decide (0 < counts.2 ∧ 4 * counts.2 ≤ 5 * counts.1)

/-- Number of non-missing cells of a row. -/
def header_total (row_values : List (Option String)) : Nat :=
  row_values.countP (fun v => v.isSome)

/-- Number of non-missing cells whose lower-cased, trimmed value is a
known column name. -/
def header_matches (row_values : List (Option String)) : Nat :=
  row_values.countP (fun v =>
    match v with
    | some s => header_valid_names.contains (pyStrip (pyLower s))
    | none => false)

theorem header_counts_foldl (row : List (Option String)) (m t : Nat) :
    row.foldl
      (fun (acc : Nat × Nat) val =>
        match val with
        | none => acc
        | some s =>
            ((acc.1 + if header_valid_names.contains (pyStrip (pyLower s))
                then 1 else 0),
              acc.2 + 1))
      (m, t) = (m + header_matches row, t + header_total row) := by
  induction row generalizing m t with
  | nil => simp [header_matches, header_total]
  | cons v rest ih =>
      rcases v with _ | s
      · simp only [List.foldl_cons]
        rw [ih m t]
        simp [header_matches, header_total, List.countP_cons]
      · simp only [List.foldl_cons]
        rw [ih]
        by_cases h : header_valid_names.contains (pyStrip (pyLower s)) = true
        · simp [header_matches, header_total, List.countP_cons, h]
          omega
        · simp [header_matches, header_total, List.countP_cons, h]
          omega

/-- C3: for a row with at least one non-missing cell, `is_header_row`
returns true exactly when at least 80 percent of the non-missing cells
match a known canonical or alias column name (threshold inclusive). -/
theorem is_header_row_spec (row : List (Option String))
    (h : 0 < header_total row) :
    (is_header_row row = true ↔
      4 * header_total row ≤ 5 * header_matches row) := by
  unfold is_header_row
  rw [header_counts_foldl row 0 0]
  simp [h]

/-- C3 (witness): a five-cell row with four recognized names (exactly 80
percent) is classified as a header row. -/
theorem is_header_row_spec_witness :
    0 < header_total
      [some "step", some "object", some "Title", some "year", some "banana"] ∧
    is_header_row
      [some "step", some "object", some "Title", some "year", some "banana"]
      = true :=
  ⟨by decide,
    (is_header_row_spec _ (by decide)).mpr (by decide)⟩

/-! ## scripts/telar/glossary.py: process_glossary_links

The replacement pattern is the regular expression
`\[\[\s*([^|\]]+?)(?:\s*\|\s*([^|\]]+?))?\s*\]\]`. A match starts at a
literal `[[`; because neither capture group nor the whitespace classes can
contain `]`, the body of a candidate match runs to the first `]` after the
opening brackets, which must be followed by a second `]`. The body may
contain at most one `|`; greedy `\s*` together with the lazy groups makes
each group the whitespace-trimmed side of the pipe (or, for an all-blank
side, its last whitespace character). `tryBody` and `parseBody` below
implement exactly this characterization, and `glosSubF` implements the
left-to-right, non-overlapping scan of `re.sub`. -/

/-- Parse the body of a candidate match (the characters between `[[` and
the first `]`), returning the raw text of group 1 and, when a pipe is
present, of group 2. -/
def parseBody (body : List Char) : Option (List Char × Option (List Char)) :=
  let grp : List Char → List Char := fun s =>
    if s.all pyIsSpace then [s.getLastD ' '] else pyStripChars s
  if (body.count '|') = 0 then
    if body.isEmpty then none else some (grp body, none)
  else if (body.count '|') = 1 then
    let L := body.takeWhile (fun c => c ≠ '|')
    let R := body.drop (L.length + 1)
    if L.isEmpty || R.isEmpty then none else some (grp L, some (grp R))
  else none

/-- Attempt a match of the glossary-link pattern whose `[[` has just been
consumed: cut the body at the first `]`, require a second `]`, and parse
the body. Returns the two raw groups and the remaining text after the
match. -/
def tryBody (l : List Char) : Option (List Char × Option (List Char) × List Char) :=
  let body := l.takeWhile (fun c => c ≠ ']')
  match l.drop body.length with
  | ']' :: ']' :: post => (parseBody body).map (fun g => (g.1, g.2, post))
  | _ => none

/-- One warning record appended for an unresolved glossary reference. The
human-readable message text is produced by the language-string table
(I/O) and is not part of the model. -/
structure GlossaryWarning where
  step : Option Nat
  termId : String
  layer : Option String
deriving DecidableEq, Repr

/-- HTML for a resolved glossary link, including the `data-demo`
attribute for demo terms. -/
def linkHtml (termId display : String) : List Char :=
  "<a href=\"#\" class=\"glossary-inline-link\" data-term-id=\"".data ++
    termId.data ++ "\"".data ++
    (if termId.startsWith "demo-" then " data-demo=\"true\"".data else []) ++
    ">".data ++ display.data ++ "</a>".data

/-- HTML for an unresolved glossary reference: a visible error span that
re-emits the original double-bracket text of group 1. -/
def errorHtml (termId : String) (g1 : List Char) : List Char :=
  "<span class=\"glossary-link-error\" data-term-id=\"".data ++
    termId.data ++ "\">⚠️ [[".data ++ g1 ++ "]]</span>".data

/-- Term id and display text of one matched reference: with a pipe the
first group is the term id and the stripped second group the display
text; without a pipe the display text is the glossary title of the id
when present, else the id itself. -/
def termDisplay (glossary_terms : List (String × String))
    (g1 : List Char) (g2 : Option (List Char)) : String × String :=
  match g2 with
  | some d => (⟨pyStripChars g1⟩, ⟨pyStripChars d⟩)
  | none =>
      let tid : String := ⟨pyStripChars g1⟩
      (tid, (dictLookup glossary_terms tid).getD tid)

/-- Replacement for one matched reference, together with the updated
warnings list (appended to only when a list was supplied). -/
def renderRef (glossary_terms : List (String × String))
    (step_num : Option Nat) (layer_name : Option String)
    (g1 : List Char) (g2 : Option (List Char))
    (w : Option (List GlossaryWarning)) :
    List Char × Option (List GlossaryWarning) :=
  let td := termDisplay glossary_terms g1 g2
  if dictContains glossary_terms td.1 then (linkHtml td.1 td.2, w)
  else
    (errorHtml td.1 g1,
      match w with
      | some ws => some (ws ++ [⟨step_num, td.1, layer_name⟩])
      | none => none)

/-- Fuel-indexed scan of `re.sub`: find the leftmost match, replace it,
continue after it; a position where the pattern cannot match emits one
character and retries at the next position. The fuel is at least the
number of remaining characters whenever the scan is entered through
`process_glossary_links`, so the fuel-exhausted branch is never taken
there. -/
def glosSubF (glossary_terms : List (String × String))
    (step_num : Option Nat) (layer_name : Option String) :
    Nat → List Char → Option (List GlossaryWarning) →
      List Char × Option (List GlossaryWarning)
  | 0, l, w => (l, w)
  | _ + 1, [], w => ([], w)
  | _ + 1, [c], w => ([c], w)
  | f + 1, c1 :: c2 :: rest, w =>
      if c1 = '[' ∧ c2 = '[' then
        match tryBody rest with
        | some (g1, g2, post) =>
            let rw0 := renderRef glossary_terms step_num layer_name g1 g2 w
            let tl := glosSubF glossary_terms step_num layer_name f post rw0.2
            (rw0.1 ++ tl.1, tl.2)
        | none =>
            let tl := glosSubF glossary_terms step_num layer_name f (c2 :: rest) w
            (c1 :: tl.1, tl.2)
      else
        let tl := glosSubF glossary_terms step_num layer_name f (c2 :: rest) w
        (c1 :: tl.1, tl.2)

/-- Transform `[[term]]` or `[[term|display]]` text into glossary link
HTML, modelling `process_glossary_links(text, glossary_terms,
warnings_list, step_num, layer_name)`. Returns the text together with the
(possibly extended) warnings list. -/
def process_glossary_links (text : String)
    (glossary_terms : List (String × String))
    (warnings_list : Option (List GlossaryWarning))
    (step_num : Option Nat) (layer_name : Option String) :
    String × Option (List GlossaryWarning) :=
  if text = "" ∨ glossary_terms = [] then (text, warnings_list)
  else
    let r := glosSubF glossary_terms step_num layer_name
      text.data.length text.data warnings_list
    (⟨r.1⟩, r.2)

/-- Specification view of the scan: a text decomposes into literal
characters and matched references. -/
inductive GSeg where
  | lit (c : Char)
  | ref (g1 : List Char) (g2 : Option (List Char))
deriving DecidableEq, Repr

/-- Is this segment a literal character (not a matched reference)? -/
def GSeg.isLit : GSeg → Bool
  | .lit _ => true
  | .ref _ _ => false

/-- Fuel-indexed segmentation of a text by the same scan as `glosSubF`. -/
def segsF : Nat → List Char → List GSeg
  | 0, l => l.map GSeg.lit
  | _ + 1, [] => []
  | _ + 1, [c] => [GSeg.lit c]
  | f + 1, c1 :: c2 :: rest =>
      if c1 = '[' ∧ c2 = '[' then
        match tryBody rest with
        | some (g1, g2, post) => GSeg.ref g1 g2 :: segsF f post
        | none => GSeg.lit c1 :: segsF f (c2 :: rest)
      else GSeg.lit c1 :: segsF f (c2 :: rest)

/-- Segmentation of a text by the glossary-link pattern. -/
def glossSegs (text : String) : List GSeg :=
  segsF text.data.length text.data

/-- Rendering of one segment: literals unchanged; a resolved reference
becomes a glossary link, an unresolved one a visible error span. -/
def renderSeg (glossary_terms : List (String × String))
    (step_num : Option Nat) (layer_name : Option String) : GSeg → List Char
  | .lit c => [c]
  | .ref g1 g2 => (renderRef glossary_terms step_num layer_name g1 g2 none).1

/-- The warning (if any) a segment contributes: exactly one per
unresolved reference, none for literals or resolved references. -/
def segWarning (glossary_terms : List (String × String))
    (step_num : Option Nat) (layer_name : Option String) :
    GSeg → Option GlossaryWarning
  | .lit _ => none
  | .ref g1 g2 =>
      let td := termDisplay glossary_terms g1 g2
      if dictContains glossary_terms td.1 then none
      else some ⟨step_num, td.1, layer_name⟩

theorem renderRef_some (gl : List (String × String)) (st : Option Nat)
    (ly : Option String) (g1 : List Char) (g2 : Option (List Char))
    (w : List GlossaryWarning) :
    renderRef gl st ly g1 g2 (some w) =
      (renderSeg gl st ly (.ref g1 g2),
        some (w ++ (segWarning gl st ly (.ref g1 g2)).toList)) := by
  simp only [renderSeg, segWarning, renderRef]
  by_cases h : dictContains gl (termDisplay gl g1 g2).1
  · simp [h]
  · simp [h]

theorem lit_map_join (gl : List (String × String)) (st : Option Nat)
    (ly : Option String) (l : List Char) :
    ((l.map GSeg.lit).map (renderSeg gl st ly)).flatten = l := by
  induction l with
  | nil => simp
  | cons c rest ih =>
      simp only [List.map_cons, List.flatten_cons, renderSeg]
      rw [ih]
      rfl

theorem lit_map_filterMap (gl : List (String × String)) (st : Option Nat)
    (ly : Option String) (l : List Char) :
    (l.map GSeg.lit).filterMap (segWarning gl st ly) = [] := by
  induction l with
  | nil => simp
  | cons c rest ih =>
      simp only [List.map_cons, List.filterMap_cons, segWarning]
      exact ih

/-- The scan of `glosSubF` is the rendering of the segmentation: the
output text is the concatenation of the per-segment renderings and the
warnings list is extended by exactly one warning per unresolved
reference, in order. -/
theorem glosSubF_eq_segsF (gl : List (String × String)) (st : Option Nat)
    (ly : Option String) :
    ∀ (f : Nat) (l : List Char) (w : List GlossaryWarning),
      glosSubF gl st ly f l (some w) =
        (((segsF f l).map (renderSeg gl st ly)).flatten,
          some (w ++ (segsF f l).filterMap (segWarning gl st ly))) := by
  intro f
  induction f with
  | zero =>
      intro l w
      simp only [glosSubF, segsF]
      rw [lit_map_join gl st ly l, lit_map_filterMap gl st ly l]
      simp
  | succ f ih =>
      intro l w
      match l with
      | [] => simp [glosSubF, segsF]
      | [c] => simp [glosSubF, segsF, renderSeg, segWarning]
      | c1 :: c2 :: rest =>
          by_cases hb : c1 = '[' ∧ c2 = '['
          · rcases htb : tryBody rest with _ | ⟨g1, g2, post⟩
            · simp only [glosSubF, segsF, if_pos hb, htb]
              rw [ih (c2 :: rest) w]
              simp only [List.map_cons, List.flatten_cons, renderSeg,
                List.filterMap_cons, segWarning]
              rfl
            · simp only [glosSubF, segsF, if_pos hb, htb]
              rw [renderRef_some]
              rw [ih post (w ++ (segWarning gl st ly (.ref g1 g2)).toList)]
              simp only [List.map_cons, List.flatten_cons, List.filterMap_cons]
              rcases hsw : segWarning gl st ly (.ref g1 g2) with _ | ww
              · simp
              · simp
          · simp only [glosSubF, segsF, if_neg hb]
            rw [ih (c2 :: rest) w]
            simp only [List.map_cons, List.flatten_cons, renderSeg,
              List.filterMap_cons, segWarning]
            rfl

/-- Shared helper: full behaviour of `process_glossary_links` on a
non-empty text with a non-empty glossary, as segmentation, rendering and
per-reference warnings. -/
theorem process_glossary_links_segs (text : String)
    (gl : List (String × String)) (w : List GlossaryWarning)
    (st : Option Nat) (ly : Option String)
    (hgl : gl ≠ []) (ht : text ≠ "") :
    process_glossary_links text gl (some w) st ly =
      (⟨((glossSegs text).map (renderSeg gl st ly)).flatten⟩,
        some (w ++ (glossSegs text).filterMap (segWarning gl st ly))) := by
  unfold process_glossary_links
  rw [if_neg (by
    rintro (h | h)
    · exact ht h
    · exact hgl h)]
  rw [glosSubF_eq_segsF gl st ly text.data.length text.data w]
  rfl

/-- C2 (amended): for every non-empty glossary dictionary and non-empty
text, the function replaces each matched double-bracket reference by
`renderSeg` (a glossary link when the trimmed id is a key, using the
explicit display text when given and the dictionary title otherwise, and
a visibly-marked error span when it is not a key) and appends exactly one
warning per unresolved reference; with an empty dictionary the text is
returned unchanged (see the counterexample). -/
theorem process_glossary_links_spec (text : String)
    (gl : List (String × String)) (w : List GlossaryWarning)
    (st : Option Nat) (ly : Option String)
    (hgl : gl ≠ []) (ht : text ≠ "") :
    process_glossary_links text gl (some w) st ly =
      (⟨((glossSegs text).map (renderSeg gl st ly)).flatten⟩,
        some (w ++ (glossSegs text).filterMap (segWarning gl st ly))) :=
  process_glossary_links_segs text gl w st ly hgl ht

/-- C2 (witness): the contract applied at a concrete text holding one
resolved and one unresolved reference. -/
theorem process_glossary_links_spec_witness :
    ([("t", "T")] : List (String × String)) ≠ [] ∧
    ("a [[t]] b [[u]]" : String) ≠ "" ∧
    process_glossary_links "a [[t]] b [[u]]" [("t", "T")] (some []) none none =
      (⟨((glossSegs "a [[t]] b [[u]]").map
          (renderSeg [("t", "T")] none none)).flatten⟩,
        some ([] ++ (glossSegs "a [[t]] b [[u]]").filterMap
          (segWarning [("t", "T")] none none))) :=
  ⟨by decide, by decide,
    process_glossary_links_spec "a [[t]] b [[u]]" [("t", "T")] [] none none
      (by decide) (by decide)⟩

/-- C2 (counterexample): with an empty dictionary the text `"[[x]]"`
contains one unresolved reference, yet the function returns the text
unchanged and appends no warning and no error span. -/
theorem process_glossary_links_empty_dict_counterexample :
    process_glossary_links "[[x]]" [] (some []) none none =
      ("[[x]]", some []) ∧
    glossSegs "[[x]]" = [GSeg.ref ['x'] none] ∧
    dictContains [] "x" = false := by
  refine ⟨by decide, by decide, by decide⟩

/-- C10: with an empty term dictionary the input text is returned
completely unchanged and nothing is appended to the warnings list, even
when the text contains unresolved references; likewise for empty input
text. -/
theorem process_glossary_links_empty_inputs (text : String)
    (gl : List (String × String)) (w : List GlossaryWarning)
    (st : Option Nat) (ly : Option String) :
    process_glossary_links text [] (some w) st ly = (text, some w) ∧
    process_glossary_links "" gl (some w) st ly = ("", some w) := by
  constructor
  · unfold process_glossary_links
    rw [if_pos (Or.inr rfl)]
  · unfold process_glossary_links
    rw [if_pos (Or.inl rfl)]

theorem segsF_all_lit_join (gl : List (String × String)) (st : Option Nat)
    (ly : Option String) :
    ∀ (f : Nat) (l : List Char),
      (∀ s ∈ segsF f l, s.isLit = true) →
        ((segsF f l).map (renderSeg gl st ly)).flatten = l := by
  intro f
  induction f with
  | zero =>
      intro l _
      simp only [segsF]
      exact lit_map_join gl st ly l
  | succ f ih =>
      intro l h
      match l with
      | [] => simp [segsF]
      | [c] => simp [segsF, renderSeg]
      | c1 :: c2 :: rest =>
          by_cases hb : c1 = '[' ∧ c2 = '['
          · rcases htb : tryBody rest with _ | ⟨g1, g2, post⟩
            · simp only [segsF, if_pos hb, htb] at h ⊢
              rw [List.map_cons, List.flatten_cons]
              have := ih (c2 :: rest) (fun s hs => h s (List.mem_cons_of_mem _ hs))
              simp [renderSeg, this]
            · exfalso
              have hm : GSeg.ref g1 g2 ∈ segsF (f + 1) (c1 :: c2 :: rest) := by
                simp [segsF, if_pos hb, htb]
              have := h _ hm
              simp [GSeg.isLit] at this
          · simp only [segsF, if_neg hb] at h ⊢
            rw [List.map_cons, List.flatten_cons]
            have := ih (c2 :: rest) (fun s hs => h s (List.mem_cons_of_mem _ hs))
            simp [renderSeg, this]

theorem all_lit_filterMap (gl : List (String × String)) (st : Option Nat)
    (ly : Option String) (segs : List GSeg)
    (h : ∀ s ∈ segs, s.isLit = true) :
    segs.filterMap (segWarning gl st ly) = [] := by
  induction segs with
  | nil => simp
  | cons s rest ih =>
      have hs := h s (List.mem_cons_self s rest)
      have hrest := ih (fun x hx => h x (List.mem_cons_of_mem _ hx))
      cases s with
      | lit c => simp [segWarning, hrest]
      | ref g1 g2 => simp [GSeg.isLit] at hs

/-- C5 (amended): `process_glossary_links` is a no-op (text unchanged, no
warnings appended) on every text in which the pattern finds no match; in
general it is not idempotent, because the error span emitted for an
unresolved reference re-emits the original `[[id]]` text, which matches
again on a second pass (see the counterexample). -/
theorem process_glossary_links_no_match_noop (text : String)
    (gl : List (String × String)) (w : List GlossaryWarning)
    (st : Option Nat) (ly : Option String)
    (h : ∀ s ∈ glossSegs text, s.isLit = true) :
    process_glossary_links text gl (some w) st ly = (text, some w) := by
  by_cases hguard : text = "" ∨ gl = []
  · unfold process_glossary_links
    rw [if_pos hguard]
  · push_neg at hguard
    rw [process_glossary_links_segs text gl w st ly hguard.2 hguard.1]
    rw [all_lit_filterMap gl st ly _ h]
    unfold glossSegs at h ⊢
    rw [segsF_all_lit_join gl st ly text.data.length text.data h]
    obtain ⟨d⟩ := text
    simp

/-- C5 (witness): the no-match no-op applied at a concrete text. -/
theorem process_glossary_links_no_match_noop_witness :
    (∀ s ∈ glossSegs "hello [world]", s.isLit = true) ∧
    process_glossary_links "hello [world]" [("t", "T")] (some []) none none =
      ("hello [world]", some []) :=
  ⟨by decide,
    process_glossary_links_no_match_noop "hello [world]" [("t", "T")] []
      none none (by decide)⟩

/-- First pass of the C5 counterexample: one unresolved reference. -/
def glossPass1 : String × Option (List GlossaryWarning) :=
  process_glossary_links "[[x]]" [("t", "T")] (some []) none none

/-- Second pass of the C5 counterexample, run on the output of the
first pass with a fresh warnings list. -/
def glossPass2 : String × Option (List GlossaryWarning) :=
  process_glossary_links glossPass1.1 [("t", "T")] (some []) none none

/-- C5 (counterexample): re-processing the output of
`process_glossary_links` changes the text again and appends a further
warning, because the error span for the unresolved `[[x]]` re-emits the
double-bracket text. -/
theorem process_glossary_links_not_idem_counterexample :
    glossPass2.1 ≠ glossPass1.1 ∧ glossPass2.2 ≠ some [] := by
  refine ⟨by decide, by decide⟩

/-! ## scripts/telar/widgets.py: widget parsing

The markdown library and the image file system checks are external to the
model: the markdown converter is a parameter `md`, the image existence
check a parameter `validate` (returning the flag and the resolved full
path), and the dimension probe a parameter `dims`. Image aspect ratios
are IEEE floats in Python; they are modelled as exact rationals. -/

/-- Structured warnings appended by the widget parsers (the message
strings carry exactly this data). -/
inductive WidgetWarning where
  | tabsTooFew (found : Nat)
  | tabsTooMany (found : Nat)
  | tabsEmptyContent (idx : Nat) (title : String)
  | accordionTooFew (found : Nat)
  | accordionTooMany (found : Nat)
  | accordionEmptyContent (idx : Nat) (title : String)
  | carouselMissingImage (blockNum : Nat)
  | carouselImageNotFound (image : String) (fullPath : String)
  | carouselMissingAlt (blockNum : Nat)
deriving DecidableEq, Repr

/-- One section of a tabs or accordion widget. -/
structure MdSection where
  title : String
  content : List String
  content_html : String
deriving DecidableEq, Repr

/-- First pass of `parse_markdown_sections`: split content on lines that
start with `## ` into (title, body lines) groups; lines before the first
header are dropped. -/
def parse_md_sections_raw (content : String) : List (String × List String) :=
  let step := fun (st : List (String × List String) × Option (String × List String))
      (line : String) =>
    if pyStartsWith "## " line then
      (match st.2 with
        | some cur => st.1 ++ [cur]
        | none => st.1,
        some (pyStrip (pyDrop line 3), []))
    else
      match st.2 with
      | some cur => (st.1, some (cur.1, cur.2 ++ [line]))
      | none => st
  let fin := (pySplit "\n" content).foldl step ([], none)
  match fin.2 with
  | some cur => fin.1 ++ [cur]
  | none => fin.1

/-- Parse content into sections based on `## ` headers and convert each
body to HTML through the markdown converter `md`, modelling
`parse_markdown_sections`. -/
def parse_markdown_sections (md : String → String) (content : String) :
    List MdSection :=
  (parse_md_sections_raw content).map
    (fun s => ⟨s.1, s.2, md (pyStrip (pyIntercalate "\n" s.2))⟩)

/-- Per-section empty-content warnings appended by the tabs and accordion
parsers (the constructor `mk` selects the widget type). -/
def sectionContentWarnings (mk : Nat → String → WidgetWarning)
    (sections : List MdSection) : List WidgetWarning :=
  (sections.enumFrom 1).filterMap
    (fun p => if pyStrip p.2.content_html = ""
      then some (mk p.1 p.2.title) else none)

/-- Parse tabs widget content, modelling `parse_tabs_widget`: warn when
fewer than 2 or more than 4 sections, warn per empty section, and return
the sections in all cases. -/
def parse_tabs_widget (md : String → String) (content : String)
    (warnings_list : List WidgetWarning) :
    List WidgetWarning × List MdSection :=
  let sections := parse_markdown_sections md content
  let count_warnings : List WidgetWarning :=
    if sections.length < 2 then [.tabsTooFew sections.length]
    else if sections.length > 4 then [.tabsTooMany sections.length]
    else []
  (warnings_list ++ (count_warnings ++
    sectionContentWarnings WidgetWarning.tabsEmptyContent sections),
   sections)

/-- Parse accordion widget content, modelling `parse_accordion_widget`:
warn when fewer than 2 or more than 6 panels, warn per empty panel, and
return the sections in all cases. -/
def parse_accordion_widget (md : String → String) (content : String)
    (warnings_list : List WidgetWarning) :
    List WidgetWarning × List MdSection :=
  let sections := parse_markdown_sections md content
  let count_warnings : List WidgetWarning :=
    if sections.length < 2 then [.accordionTooFew sections.length]
    else if sections.length > 6 then [.accordionTooMany sections.length]
    else []
  (warnings_list ++ (count_warnings ++
    sectionContentWarnings WidgetWarning.accordionEmptyContent sections),
   sections)

theorem mem_sectionContentWarnings {mk : Nat → String → WidgetWarning}
    {sections : List MdSection} {x : WidgetWarning}
    (h : x ∈ sectionContentWarnings mk sections) :
    ∃ i t, x = mk i t := by
  rcases List.mem_filterMap.mp h with ⟨p, _, hp⟩
  by_cases hc : pyStrip p.2.content_html = ""
  · rw [if_pos hc] at hp
    exact ⟨p.1, p.2.title, (Option.some_injective _ hp).symm⟩
  · rw [if_neg hc] at hp
    cases hp

/-- C7: the tabs and accordion parsers append a minimum-count warning
exactly when the number of parsed sections is below 2, a maximum-count
warning exactly when it exceeds 4 (tabs) or 6 (accordion), no count
warning otherwise, and in every case return the parsed sections. -/
theorem widget_count_warnings_spec (md : String → String) (content : String)
    (w : List WidgetWarning) :
    ((parse_tabs_widget md content w).2 = parse_markdown_sections md content ∧
      ∃ fresh, (parse_tabs_widget md content w).1 = w ++ fresh ∧
        ((∃ k, WidgetWarning.tabsTooFew k ∈ fresh) ↔
          (parse_markdown_sections md content).length < 2) ∧
        ((∃ k, WidgetWarning.tabsTooMany k ∈ fresh) ↔
          4 < (parse_markdown_sections md content).length)) ∧
    ((parse_accordion_widget md content w).2 = parse_markdown_sections md content ∧
      ∃ fresh, (parse_accordion_widget md content w).1 = w ++ fresh ∧
        ((∃ k, WidgetWarning.accordionTooFew k ∈ fresh) ↔
          (parse_markdown_sections md content).length < 2) ∧
        ((∃ k, WidgetWarning.accordionTooMany k ∈ fresh) ↔
          6 < (parse_markdown_sections md content).length)) := by
  constructor
  · refine ⟨rfl, _, rfl, ?_, ?_⟩
    · constructor
      · rintro ⟨k, hk⟩
        rcases List.mem_append.mp hk with hk | hk
        · by_cases h2 : (parse_markdown_sections md content).length < 2
          · exact h2
          · by_cases h4 : (parse_markdown_sections md content).length > 4
            · rw [if_neg h2, if_pos h4] at hk
              simp at hk
            · rw [if_neg h2, if_neg h4] at hk
              simp at hk
        · rcases mem_sectionContentWarnings hk with ⟨i, t, ht⟩
          cases ht
      · intro h2
        refine ⟨(parse_markdown_sections md content).length,
          List.mem_append.mpr (Or.inl ?_)⟩
        rw [if_pos h2]
        exact List.mem_singleton.mpr rfl
    · constructor
      · rintro ⟨k, hk⟩
        rcases List.mem_append.mp hk with hk | hk
        · by_cases h2 : (parse_markdown_sections md content).length < 2
          · rw [if_pos h2] at hk
            simp at hk
          · by_cases h4 : (parse_markdown_sections md content).length > 4
            · exact h4
            · rw [if_neg h2, if_neg h4] at hk
              simp at hk
        · rcases mem_sectionContentWarnings hk with ⟨i, t, ht⟩
          cases ht
      · intro h4
        refine ⟨(parse_markdown_sections md content).length,
          List.mem_append.mpr (Or.inl ?_)⟩
        rw [if_neg (by omega), if_pos h4]
        exact List.mem_singleton.mpr rfl
  · refine ⟨rfl, _, rfl, ?_, ?_⟩
    · constructor
      · rintro ⟨k, hk⟩
        rcases List.mem_append.mp hk with hk | hk
        · by_cases h2 : (parse_markdown_sections md content).length < 2
          · exact h2
          · by_cases h6 : (parse_markdown_sections md content).length > 6
            · rw [if_neg h2, if_pos h6] at hk
              simp at hk
            · rw [if_neg h2, if_neg h6] at hk
              simp at hk
        · rcases mem_sectionContentWarnings hk with ⟨i, t, ht⟩
          cases ht
      · intro h2
        refine ⟨(parse_markdown_sections md content).length,
          List.mem_append.mpr (Or.inl ?_)⟩
        rw [if_pos h2]
        exact List.mem_singleton.mpr rfl
    · constructor
      · rintro ⟨k, hk⟩
        rcases List.mem_append.mp hk with hk | hk
        · by_cases h2 : (parse_markdown_sections md content).length < 2
          · rw [if_pos h2] at hk
            simp at hk
          · by_cases h6 : (parse_markdown_sections md content).length > 6
            · exact h6
            · rw [if_neg h2, if_neg h6] at hk
              simp at hk
        · rcases mem_sectionContentWarnings hk with ⟨i, t, ht⟩
          cases ht
      · intro h6
        refine ⟨(parse_markdown_sections md content).length,
          List.mem_append.mpr (Or.inl ?_)⟩
        rw [if_neg (by omega), if_pos h6]
        exact List.mem_singleton.mpr rfl

/-- Extract `key: value` pairs from a text block, modelling
`parse_key_value_block`: lines containing a colon and not starting with
`#` contribute a binding of the trimmed key to the trimmed value. -/
def parse_key_value_block (content : String) : List (String × String) :=
  (pySplit "\n" (pyStrip content)).foldl
    (fun d line0 =>
      let line := pyStrip line0
      if line.data.contains ':' && !(pyStartsWith "#" line) then
        let key : String := ⟨line.data.takeWhile (fun c => c ≠ ':')⟩
        let value := pyDrop line (key.data.length + 1)
        dictSet d (pyStrip key) (pyStrip value)
      else d)
    []

/-- Strip a single wrapping paragraph tag, modelling
`re.sub(r'^<p>(.*)</p>$', r'\1', h)` on an already-stripped string: the
dot does not match a newline, so the pattern matches exactly the
newline-free strings wrapped in `<p>...</p>`. -/
def strip_p_tags (h : String) : String :=
  if !(h.data.contains '\n') && pyStartsWith "<p>" h && pyEndsWith "</p>" h
      && decide (7 ≤ h.data.length)
  then pyDropRight (pyDrop h 3) 4 else h

/-- Missing-alt handling for one carousel item: keep the item, defaulting
`alt` to the empty string with a warning when absent. -/
def carouselAltStep (block_num : Nat) (data : List (String × String)) :
    List (String × String) × List WidgetWarning :=
  if dictContains data "alt" then (data, [])
  else (dictSet data "alt" "", [.carouselMissingAlt block_num])

/-- Run caption or credit text through the markdown converter and strip
the wrapping paragraph tag, when the key is present. -/
def carouselMdField (md : String → String) (key : String)
    (data : List (String × String)) : List (String × String) :=
  if dictContains data key then
    dictSet data key (strip_p_tags (pyStrip (md (dictGetD data key ""))))
  else data

/-- Parse one non-empty carousel item block, modelling one iteration of
the block loop of `parse_carousel_widget`: a block without `image` is
dropped with a warning; a failing image existence check warns but keeps
the item; a missing `alt` warns and defaults to the empty string. -/
def parse_carousel_block (validate : String → Bool × String)
    (md : String → String) (block_num : Nat) (block : String) :
    Option (List (String × String)) × List WidgetWarning :=
  let data := parse_key_value_block block
  if dictContains data "image" = false then
    (none, [.carouselMissingImage block_num])
  else
    let v := validate (dictGetD data "image" "")
    let w1 : List WidgetWarning :=
      if v.1 then [] else [.carouselImageNotFound (dictGetD data "image" "") v.2]
    let aw := carouselAltStep block_num data
    (some (carouselMdField md "credit" (carouselMdField md "caption" aw.1)),
      w1 ++ aw.2)

/-- Per-block results of the carousel parser: blocks are numbered from 1
before stripping, and blank blocks are skipped. -/
def carouselBlockResults (validate : String → Bool × String)
    (md : String → String) (content : String) :
    List (Option (List (String × String)) × List WidgetWarning) :=
  ((pySplit "---" content).enumFrom 1).map
    (fun p => if pyStrip p.2 = "" then (none, [])
      else parse_carousel_block validate md p.1 (pyStrip p.2))

/-- Parse carousel widget content, modelling `parse_carousel_widget`.
The image existence check is the parameter `validate`, the dimension
probe the parameter `dims`, and the float aspect ratios are modelled as
exact rationals. Returns the warnings, the kept items, and the size
class. -/
def parse_carousel_widget (validate : String → Bool × String)
    (md : String → String) (dims : String → Option (Nat × Nat))
    (content : String) (warnings_list : List WidgetWarning) :
    List WidgetWarning × List (List (String × String)) × String :=
  let results := carouselBlockResults validate md content
  let items := results.filterMap Prod.fst
  let warnings := warnings_list ++ (results.map Prod.snd).flatten
  let aspect_ratios := items.filterMap
    (fun it =>
      match dims (dictGetD it "image" "") with
      | some wh => if 0 < wh.1 then some ((wh.2 : ℚ) / (wh.1 : ℚ)) else none
      | none => none)
  let size_class :=
    match aspect_ratios with
    | [] => "default"
    | r :: rs =>
        let m := rs.foldl max r
        if m < (3 : ℚ)/5 then "compact"
        else if m < 1 then "default"
        else if m < (3 : ℚ)/2 then "tall"
        else "portrait"
  (warnings, items, size_class)

theorem carouselMdField_lookup_ne (md : String → String) (key : String)
    (data : List (String × String)) (k : String) (h : k ≠ key) :
    dictLookup (carouselMdField md key data) k = dictLookup data k := by
  unfold carouselMdField
  by_cases hc : dictContains data key
  · rw [if_pos hc, dictLookup_set_ne _ _ _ _ h]
  · rw [if_neg hc]

/-- C8: in every carousel block list, items and warnings are exactly the
concatenated per-block results; a non-empty block without an `image` key
warns and is dropped; a block with an `image` key is kept, with a
missing-alt warning and empty `alt` when `alt` is absent, and with an
image-not-found warning (but still kept) when the existence check
fails. -/
theorem parse_carousel_widget_spec (validate : String → Bool × String)
    (md : String → String) (dims : String → Option (Nat × Nat))
    (content : String) (w : List WidgetWarning) :
    ((parse_carousel_widget validate md dims content w).2.1 =
        (carouselBlockResults validate md content).filterMap Prod.fst ∧
      (parse_carousel_widget validate md dims content w).1 =
        w ++ ((carouselBlockResults validate md content).map Prod.snd).flatten) ∧
    (∀ (bn : Nat) (b : String),
      (dictContains (parse_key_value_block b) "image" = false →
        parse_carousel_block validate md bn b =
          (none, [WidgetWarning.carouselMissingImage bn])) ∧
      (dictContains (parse_key_value_block b) "image" = true →
        ∃ item, (parse_carousel_block validate md bn b).1 = some item ∧
          (dictContains (parse_key_value_block b) "alt" = false →
            dictGetD item "alt" "" = "" ∧
            WidgetWarning.carouselMissingAlt bn ∈
              (parse_carousel_block validate md bn b).2) ∧
          ((validate (dictGetD (parse_key_value_block b) "image" "")).1 = false →
            WidgetWarning.carouselImageNotFound
                (dictGetD (parse_key_value_block b) "image" "")
                (validate (dictGetD (parse_key_value_block b) "image" "")).2 ∈
              (parse_carousel_block validate md bn b).2))) := by
  refine ⟨⟨rfl, rfl⟩, ?_⟩
  intro bn b
  constructor
  · intro h
    unfold parse_carousel_block
    rw [if_pos h]
  · intro h
    unfold parse_carousel_block
    rw [if_neg (by rw [h]; simp)]
    refine ⟨_, rfl, ?_, ?_⟩
    · intro halt
      constructor
      · have haw : carouselAltStep bn (parse_key_value_block b) =
            (dictSet (parse_key_value_block b) "alt" "",
              [WidgetWarning.carouselMissingAlt bn]) := by
          unfold carouselAltStep
          rw [halt]
          simp
        rw [haw]
        unfold dictGetD
        rw [carouselMdField_lookup_ne md _ _ _ (by decide),
          carouselMdField_lookup_ne md _ _ _ (by decide),
          dictLookup_set_self]
        rfl
      · have haw2 : (carouselAltStep bn (parse_key_value_block b)).2 =
            [WidgetWarning.carouselMissingAlt bn] := by
          unfold carouselAltStep
          rw [halt]
          simp
        dsimp only
        rw [haw2]
        exact List.mem_append.mpr (Or.inr (List.mem_singleton.mpr rfl))
    · intro hv
      dsimp only
      rw [hv]
      simp

/-- C8 (witness): the per-block policy applied at concrete blocks: a
block without `image` is dropped with a warning; a block with `image` and
no `alt` (and a failing existence check) is kept with empty `alt` and
both warnings. -/
theorem parse_carousel_widget_spec_witness :
    (dictContains (parse_key_value_block "caption: hi") "image" = false ∧
      parse_carousel_block (fun s => (pyStartsWith "ok" s, "full/" ++ s)) id
          1 "caption: hi" =
        (none, [WidgetWarning.carouselMissingImage 1])) ∧
    (dictContains (parse_key_value_block "image: bad.jpg") "image" = true ∧
      ∃ item,
        (parse_carousel_block (fun s => (pyStartsWith "ok" s, "full/" ++ s)) id
            2 "image: bad.jpg").1 = some item ∧
        dictGetD item "alt" "" = "" ∧
        WidgetWarning.carouselMissingAlt 2 ∈
          (parse_carousel_block (fun s => (pyStartsWith "ok" s, "full/" ++ s))
            id 2 "image: bad.jpg").2 ∧
        WidgetWarning.carouselImageNotFound "bad.jpg" "full/bad.jpg" ∈
          (parse_carousel_block (fun s => (pyStartsWith "ok" s, "full/" ++ s))
            id 2 "image: bad.jpg").2) := by
  constructor
  · exact ⟨by decide,
      ((parse_carousel_widget_spec (fun s => (pyStartsWith "ok" s, "full/" ++ s))
        id (fun _ => none) "" []).2 1 "caption: hi").1 (by decide)⟩
  · refine ⟨by decide, ?_⟩
    rcases ((parse_carousel_widget_spec
        (fun s => (pyStartsWith "ok" s, "full/" ++ s))
        id (fun _ => none) "" []).2 2 "image: bad.jpg").2 (by decide) with
      ⟨item, hitem, halt, hnf⟩
    rcases halt (by decide) with ⟨halt1, halt2⟩
    refine ⟨item, hitem, halt1, halt2, ?_⟩
    have := hnf (by decide)
    simpa using this

/-- C7 (witness): the section-count policy applied at concrete blocks: a
one-section tabs block gets exactly the minimum-count warning; a
two-section accordion block gets no count warning. -/
theorem widget_count_warnings_spec_witness :
    (parse_tabs_widget id "## A\nbody" []).2 =
      parse_markdown_sections id "## A\nbody" ∧
    parse_tabs_widget id "## A\nbody" [] =
      ([WidgetWarning.tabsTooFew 1], parse_markdown_sections id "## A\nbody") ∧
    parse_accordion_widget id "## A\nx\n## B\ny" [] =
      ([], parse_markdown_sections id "## A\nx\n## B\ny") :=
  ⟨(widget_count_warnings_spec id "## A\nbody" []).1.1, by decide, by decide⟩

/-! ## scripts/telar/iiif_metadata.py: is_legal_boilerplate -/

/-- Phrases indicating generic legal boilerplate rather than an actual
credit line, verbatim from `is_legal_boilerplate`. -/
def boilerplate_indicators : List String :=
  ["for information on use",
   "rights and permissions",
   "http://",
   "https://",
   "licensed under",
   "license",
   "see library",
   "please see",
   "for more information"]

/-- Detect whether attribution text is generic legal boilerplate,
modelling `is_legal_boilerplate(text)`: empty text is not boilerplate; a
lower-cased text starting with `http` is; otherwise the text is
boilerplate when it contains at least two indicator phrases or is longer
than 200 characters. -/
def is_legal_boilerplate (text : String) : Bool :=
  if text = "" then false
  else
    let text_lower := pyLower text
    if pyStartsWith "http" text_lower then true
    else
      let indicator_count :=
        (boilerplate_indicators.filter
          (fun ind => containsSub ind.data text_lower.data)).length
      if 2 ≤ indicator_count ∨ 200 < text.data.length then true
      else false

/-- C9: a string whose lower-casing starts with the URL scheme `http` is
classified as boilerplate; any string longer than 200 characters is
classified as boilerplate regardless of content; and the short
attribution `"Courtesy of the National Gallery"` is not classified as
boilerplate. -/
theorem is_legal_boilerplate_spec :
    (∀ t : String, pyStartsWith "http" (pyLower t) = true →
      is_legal_boilerplate t = true) ∧
    (∀ t : String, 200 < t.data.length → is_legal_boilerplate t = true) ∧
    is_legal_boilerplate "Courtesy of the National Gallery" = false := by
  refine ⟨?_, ?_, by decide⟩
  · intro t h
    unfold is_legal_boilerplate
    have ht : t ≠ "" := by
      rintro rfl
      simp [pyLower, pyStartsWith, matchesAt] at h
    rw [if_neg ht]
    simp only [h, if_true]
  · intro t h
    unfold is_legal_boilerplate
    have ht : t ≠ "" := by
      rintro rfl
      simp at h
    rw [if_neg ht]
    by_cases hh : pyStartsWith "http" (pyLower t) = true
    · simp only [hh, if_true]
    · simp only [hh]
      rw [if_neg (by simp [hh]), if_pos (Or.inr h)]

set_option maxRecDepth 4000 in
/-- C9 (witness): the boilerplate classification applied at a concrete
URL string and at a concrete 201-character string. -/
theorem is_legal_boilerplate_spec_witness :
    (pyStartsWith "http" (pyLower "http://example.com/rights") = true ∧
      is_legal_boilerplate "http://example.com/rights" = true) ∧
    (200 < (⟨List.replicate 201 'a'⟩ : String).data.length ∧
      is_legal_boilerplate ⟨List.replicate 201 'a'⟩ = true) :=
  ⟨⟨by decide, is_legal_boilerplate_spec.1 "http://example.com/rights" (by decide)⟩,
    ⟨by decide, is_legal_boilerplate_spec.2.1 ⟨List.replicate 201 'a'⟩ (by decide)⟩⟩

end Telar
